import Mathlib

/-!
# Verification of the MiniLlama2 tutorial's attention / transformer-block core

Shallow embedding of the numeric core of the repository
`build_llama2_from_scratch_torch`:

* `Lesson4-Multi-Head_Attention_and_Transformer_Block.ipynb`:
  a hand-written `MultiHeadAttention` (four `nn.Linear` projections, explicit
  head split/merge, scaled dot-product, softmax) and a `TransformerBlock`
  (attention, feed-forward, two `nn.LayerNorm`s, residual adds).
* `Lesson5-Building_the_Language_Model.ipynb`:
  `PositionalEncoding` (sine/cosine table), a `MultiHeadAttention` wrapper
  around `nn.MultiheadAttention`, the same `TransformerBlock` wiring, and a
  `LanguageModel` (embedding, positional add, stacked blocks, output linear).

Real tensors are embedded as functions from `Fin`-indices to `ℝ` (the value
model), and PyTorch's shape/broadcast behaviour as computable functions on
`List ℕ` shapes (the shape model).  Fallible operations (the divisibility
assert in the constructor, the embedding lookup, shape mismatches) return
`Option`.  Dropout is modelled in inference mode (identity), as the spec's
testable properties prescribe for numeric laws.
-/

/-! ## Positional encoding (Lesson 5, `PositionalEncoding.__init__`)

Source:
```
pe = torch.zeros(max_seq_length, embed_dim)
position = torch.arange(0, max_seq_length).unsqueeze(1)
div_term = torch.exp(torch.arange(0, embed_dim, 2) * -(np.log(10000.0) / embed_dim))
pe[:, 0::2] = torch.sin(position * div_term)
pe[:, 1::2] = torch.cos(position * div_term)
```
`div_term` entry `i` is `exp((2*i) * -(log 10000 / embed_dim))`; column `2*i`
of the table gets `sin(pos * div_term[i])` and column `2*i+1` gets
`cos(pos * div_term[i])`.  When `embed_dim` is odd the second slice assignment
fails in PyTorch (the right-hand side has `⌈d/2⌉` columns, the slice only
`⌊d/2⌋`), so construction returns `none` in that case. -/

noncomputable def divTerm (d i : ℕ) : ℝ :=
  Real.exp ((2 * i : ℝ) * -(Real.log 10000 / (d : ℝ)))

noncomputable def peFun (d : ℕ) (pos k : ℕ) : ℝ :=
  if k % 2 = 0 then Real.sin ((pos : ℝ) * divTerm d (k / 2))
  else Real.cos ((pos : ℝ) * divTerm d (k / 2))

noncomputable def peBuild (d m : ℕ) : Option (ℕ → ℕ → ℝ) :=
  if d % 2 = 0 then
    some (fun pos k => if pos < m ∧ k < d then peFun d pos k else 0)
  else none

/-- Entry `i` of `div_term` is the reciprocal of `10000 ^ (2*i / d)`. -/
theorem divTerm_eq (d i : ℕ) :
    divTerm d i = ((10000 : ℝ) ^ ((2 * i : ℝ) / (d : ℝ)))⁻¹ := by
  rw [divTerm, Real.rpow_def_of_pos (by norm_num : (0:ℝ) < 10000), ← Real.exp_neg]
  congr 1
  ring

/-- C2: for every position `pos < max_seq_length` and dimension pair
`(2i, 2i+1)` inside the table, the precomputed table satisfies
`pe[pos, 2i] = sin(pos / 10000^(2i/embed_dim))` and
`pe[pos, 2i+1] = cos(pos / 10000^(2i/embed_dim))`; in particular
`pe[0, 2i] = 0` and `pe[0, 2i+1] = 1`, and construction is deterministic
(two builds with identical arguments give identical tables). -/
theorem pe_table_spec (d m : ℕ) (t : ℕ → ℕ → ℝ) (ht : peBuild d m = some t)
    (pos i : ℕ) (hpos : pos < m) (hi : 2 * i + 1 < d) :
    t pos (2 * i) = Real.sin ((pos : ℝ) / (10000 : ℝ) ^ ((2 * i : ℝ) / (d : ℝ))) ∧
    t pos (2 * i + 1) = Real.cos ((pos : ℝ) / (10000 : ℝ) ^ ((2 * i : ℝ) / (d : ℝ))) ∧
    t 0 (2 * i) = 0 ∧ t 0 (2 * i + 1) = 1 ∧ peBuild d m = peBuild d m := by
  have hd2 : d % 2 = 0 := by
    by_contra h
    simp [peBuild, h] at ht
  rw [peBuild, if_pos hd2] at ht
  have htf := Option.some.inj ht
  subst htf
  have hm0 : 0 < m := Nat.lt_of_le_of_lt (Nat.zero_le pos) hpos
  have heven : (2 * i) % 2 = 0 := by omega
  have hodd : ¬((2 * i + 1) % 2 = 0) := by omega
  have hdivE : 2 * i / 2 = i := by omega
  have hdivO : (2 * i + 1) / 2 = i := by omega
  refine ⟨?_, ?_, ?_, ?_, rfl⟩
  · show (if pos < m ∧ 2 * i < d then peFun d pos (2 * i) else 0) = _
    rw [if_pos ⟨hpos, by omega⟩, peFun, if_pos heven, hdivE, divTerm_eq,
      ← div_eq_mul_inv]
  · show (if pos < m ∧ 2 * i + 1 < d then peFun d pos (2 * i + 1) else 0) = _
    rw [if_pos ⟨hpos, hi⟩, peFun, if_neg hodd, hdivO, divTerm_eq,
      ← div_eq_mul_inv]
  · show (if 0 < m ∧ 2 * i < d then peFun d 0 (2 * i) else 0) = 0
    rw [if_pos ⟨hm0, by omega⟩, peFun, if_pos heven]
    simp
  · show (if 0 < m ∧ 2 * i + 1 < d then peFun d 0 (2 * i + 1) else 0) = 1
    rw [if_pos ⟨hm0, hi⟩, peFun, if_neg hodd]
    simp

/-- The concrete table built by `peBuild 4 3`, used to witness `pe_table_spec`. -/
noncomputable def peTable43 : ℕ → ℕ → ℝ :=
  fun pos k => if pos < 3 ∧ k < 4 then peFun 4 pos k else 0

/-- Witness for C2 at `embed_dim = 4`, `max_seq_length = 3`, `pos = 1`, `i = 0`. -/
theorem pe_table_spec_witness :
    peTable43 1 (2 * 0) = Real.sin ((1 : ℝ) / (10000 : ℝ) ^ ((2 * 0 : ℝ) / (4 : ℝ))) ∧
    peTable43 1 (2 * 0 + 1) = Real.cos ((1 : ℝ) / (10000 : ℝ) ^ ((2 * 0 : ℝ) / (4 : ℝ))) ∧
    peTable43 0 (2 * 0) = 0 ∧ peTable43 0 (2 * 0 + 1) = 1 ∧
    peBuild 4 3 = peBuild 4 3 := by
  have h1 : peBuild 4 3 = some peTable43 := by
    rw [peBuild, if_pos (by norm_num)]
    rfl
  have h := pe_table_spec 4 3 peTable43 h1 1 0 (by norm_num) (by norm_num)
  push_cast at h ⊢
  exact h

/-! ## Multi-head attention constructor (Lesson 4, `MultiHeadAttention.__init__`)

Source:
```
self.head_dim = embed_dim // num_heads
assert embed_dim % num_heads == 0, "embed_dim must be divisible by num_heads"
```
With `num_heads = 0`, Python's `//` raises `ZeroDivisionError` before the
assert; otherwise the assert raises exactly when the remainder is nonzero.
Success returns the stored `(embed_dim, head_dim)` configuration. -/

def mhaInit (embed_dim num_heads : ℕ) : Option (ℕ × ℕ) :=
  if num_heads = 0 then none
  else if embed_dim % num_heads = 0 then some (embed_dim, embed_dim / num_heads)
  else none

/-- C5: for `num_heads > 0`, constructing `MultiHeadAttention` succeeds exactly
when `embed_dim % num_heads = 0` and fails deterministically otherwise; with
`num_heads = 0` (where the Python `%` itself raises) construction always
fails. -/
theorem mha_init_divisibility (e h : ℕ) :
    (0 < h → ((mhaInit e h).isSome ↔ e % h = 0)) ∧ mhaInit e 0 = none := by
  constructor
  · intro hh
    by_cases he : e % h = 0 <;> simp [mhaInit, hh.ne', he]
  · simp [mhaInit]

/-- Witness for C5 at `embed_dim = 64`, `num_heads = 4`. -/
theorem mha_init_divisibility_witness :
    ((mhaInit 64 4).isSome ↔ 64 % 4 = 0) ∧ mhaInit 64 0 = none :=
  ⟨(mha_init_divisibility 64 4).1 (by decide), (mha_init_divisibility 64 4).2⟩

/-! ## Value model of tensors

3-D activations of shape `(batch, seq_length, embed_dim)` are functions
`Fin B → Fin S → Fin E → ℝ`; the per-head 4-D tensors are
`Fin B → Fin H → Fin S → Fin D → ℝ`.  The hand-written attention of Lesson 4
only exists for `embed_dim` divisible by `num_heads` (the constructor
asserts it), so its value model takes the factored form `E = H * D` with
`D = head_dim`. -/

abbrev Tensor3 (B S E : ℕ) := Fin B → Fin S → Fin E → ℝ

abbrev Tensor4 (B H S D : ℕ) := Fin B → Fin H → Fin S → Fin D → ℝ

/-- Parameters of one `nn.Linear(inF, outF)`: `weight` is `(outF, inF)` and
the layer computes `y = x @ weight.T + bias` on the last axis. -/
structure LinearParams (inF outF : ℕ) where
  weight : Fin outF → Fin inF → ℝ
  bias : Fin outF → ℝ

noncomputable def linear3 {B S inF outF : ℕ} (p : LinearParams inF outF)
    (x : Tensor3 B S inF) : Tensor3 B S outF :=
  fun b s o => (∑ i, x b s i * p.weight o i) + p.bias o

/-- Model of `torch.softmax` over the last axis of a row. -/
noncomputable def softmax {S : ℕ} (v : Fin S → ℝ) : Fin S → ℝ :=
  fun j => Real.exp (v j) / ∑ k, Real.exp (v k)

/-- Feature index `h * D + j` of head `h`, coordinate `j`: the position that
row-major `view(B, S, H, D)` assigns to `(h, j)` in the flat feature axis. -/
def finHD {H D : ℕ} (h : Fin H) (j : Fin D) : Fin (H * D) :=
  ⟨h.1 * D + j.1, by
    calc h.1 * D + j.1 < h.1 * D + D := by omega
    _ = (h.1 + 1) * D := by ring
    _ ≤ H * D := Nat.mul_le_mul_right D h.2⟩

/-- Model of `Q.view(batch, seq, H, D).transpose(1, 2)`: head `h` of a 3-D tensor. -/
def splitHeads {B S H D : ℕ} (t : Tensor3 B S (H * D)) : Tensor4 B H S D :=
  fun b h s j => t b s (finHD h j)

lemma headDim_pos {H D : ℕ} (e : Fin (H * D)) : 0 < D := by
  rcases Nat.eq_zero_or_pos D with h | h
  · exact absurd e.2 (by simp [h])
  · exact h

/-- Model of `out.transpose(1, 2).contiguous().view(batch, seq, H * D)`: feature `e`
of the merged tensor comes from head `e / D`, coordinate `e % D`. -/
def mergeHeads {B S H D : ℕ} (t : Tensor4 B H S D) : Tensor3 B S (H * D) :=
  fun b s e =>
    t b ⟨e.1 / D, (Nat.div_lt_iff_lt_mul (headDim_pos e)).mpr (by
        have := e.2; omega)⟩
      s ⟨e.1 % D, Nat.mod_lt _ (headDim_pos e)⟩

/-- Model of `self.scale = self.head_dim ** -0.5`. -/
noncomputable def mhaScale (D : ℕ) : ℝ := (D : ℝ) ^ (-(1 / 2 : ℝ))

/-- The four projections of Lesson 4's `MultiHeadAttention` (`self.query`,
`self.key`, `self.value`, `self.out`), each `nn.Linear(E, E)` with
`E = H * D`. -/
structure MHAParams (H D : ℕ) where
  query : LinearParams (H * D) (H * D)
  key : LinearParams (H * D) (H * D)
  value : LinearParams (H * D) (H * D)
  out : LinearParams (H * D) (H * D)

/-! Lesson 4, `MultiHeadAttention.forward`, line by line:
```
Q = self.query(x); K = self.key(x); V = self.value(x)
Q = Q.view(b, s, H, hd).transpose(1, 2)   # likewise K, V
scores = torch.matmul(Q, K.transpose(-2, -1)) * self.scale
attn_weights = torch.softmax(scores, dim=-1)
out = torch.matmul(attn_weights, V)
out = out.transpose(1, 2).contiguous().view(b, s, E)
out = self.out(out)
return out, attn_weights
```
The intermediate tensors are named definitions so each source line has one
counterpart. -/

/-- Model of `scores = torch.matmul(Q, K.transpose(-2, -1)) * self.scale`, with `Q`,
`K` the projected-and-split tensors. -/
noncomputable def mhaScores {B S H D : ℕ} (p : MHAParams H D) (x : Tensor3 B S (H * D)) :
    Fin B → Fin H → Fin S → Fin S → ℝ :=
  fun b h i j =>
    (∑ k, splitHeads (linear3 p.query x) b h i k * splitHeads (linear3 p.key x) b h j k) *
      mhaScale D

/-- Model of `attn_weights = torch.softmax(scores, dim=-1)`. -/
noncomputable def mhaWeights {B S H D : ℕ} (p : MHAParams H D) (x : Tensor3 B S (H * D)) :
    Fin B → Fin H → Fin S → Fin S → ℝ :=
  fun b h i => softmax (mhaScores p x b h i)

/-- Model of `out = torch.matmul(attn_weights, V)`. -/
noncomputable def mhaOutHeads {B S H D : ℕ} (p : MHAParams H D) (x : Tensor3 B S (H * D)) :
    Tensor4 B H S D :=
  fun b h i k => ∑ j, mhaWeights p x b h i j * splitHeads (linear3 p.value x) b h j k

/-- Model of `return self.out(out.transpose(1, 2).contiguous().view(b, s, E)), attn_weights`. -/
noncomputable def mhaForward {B S H D : ℕ} (p : MHAParams H D) (x : Tensor3 B S (H * D)) :
    Tensor3 B S (H * D) × (Fin B → Fin H → Fin S → Fin S → ℝ) :=
  (linear3 p.out (mergeHeads (mhaOutHeads p x)), mhaWeights p x)

/-! ## Spec-side formulation of the multi-head attention contract

The definitions below follow the wording of spec §4.2 step by step: linear
projections of `x`, per-head scores `Q·Kᵗ * head_dim^(-0.5)`, softmax over
the key axis, weighted sum of values, heads concatenated in head order along
the feature axis (feature `h * head_dim + j` holds head `h`, coordinate `j`),
then the output projection. -/

noncomputable def specScores {B S H D : ℕ} (p : MHAParams H D) (x : Tensor3 B S (H * D)) :
    Fin B → Fin H → Fin S → Fin S → ℝ :=
  fun b h i j =>
    (∑ k : Fin D, linear3 p.query x b i (finHD h k) * linear3 p.key x b j (finHD h k)) *
      (D : ℝ) ^ (-(1 / 2 : ℝ))

noncomputable def specWeights {B S H D : ℕ} (p : MHAParams H D) (x : Tensor3 B S (H * D)) :
    Fin B → Fin H → Fin S → Fin S → ℝ :=
  fun b h i j =>
    Real.exp (specScores p x b h i j) / ∑ j', Real.exp (specScores p x b h i j')

noncomputable def specHeadOut {B S H D : ℕ} (p : MHAParams H D) (x : Tensor3 B S (H * D)) :
    Fin B → Fin H → Fin S → Fin D → ℝ :=
  fun b h i k => ∑ j, specWeights p x b h i j * linear3 p.value x b j (finHD h k)

noncomputable def specResult {B S H D : ℕ} (p : MHAParams H D) (x : Tensor3 B S (H * D)) :
    Tensor3 B S (H * D) :=
  fun b s o =>
    (∑ h, ∑ j, specHeadOut p x b h s j * p.out.weight o (finHD h j)) + p.out.bias o

/-- Reading the merged tensor at the feature slot of head `h`, coordinate `j`
recovers that head's entry: the merge inverts the split. -/
lemma mergeHeads_finHD {B S H D : ℕ} (t : Tensor4 B H S D) (b : Fin B) (s : Fin S)
    (h : Fin H) (j : Fin D) : mergeHeads t b s (finHD h j) = t b h s j := by
  have e1 : (h.1 * D + j.1) / D = h.1 := by
    rw [Nat.mul_comm, Nat.mul_add_div j.pos, Nat.div_eq_of_lt j.2]
    omega
  have e2 : (h.1 * D + j.1) % D = j.1 := by
    rw [Nat.mul_comm, Nat.mul_add_mod, Nat.mod_eq_of_lt j.2]
  have key : ∀ (a : Fin H) (c : Fin D), a = h → c = j → t b a s c = t b h s j := by
    intro a c ha hc
    rw [ha, hc]
  exact key _ _ (Fin.ext e1) (Fin.ext e2)

/-- Summing over the flat feature axis is summing over heads and head
coordinates. -/
lemma sum_finHD {H D : ℕ} (f : Fin (H * D) → ℝ) :
    ∑ e, f e = ∑ h : Fin H, ∑ j : Fin D, f (finHD h j) := by
  calc ∑ e, f e
      = ∑ p : Fin H × Fin D, f (finProdFinEquiv p) :=
        (Equiv.sum_comp finProdFinEquiv f).symm
    _ = ∑ p : Fin H × Fin D, f (finHD p.1 p.2) := by
        apply Finset.sum_congr rfl
        intro p _
        congr 1
        apply Fin.ext
        show p.2.1 + D * p.1.1 = p.1.1 * D + p.2.1
        ring
    _ = ∑ h : Fin H, ∑ j : Fin D, f (finHD h j) := by
        exact Fintype.sum_prod_type (fun q => f (finHD q.1 q.2))

/-- C1: Lesson 4's `MultiHeadAttention.forward` computes exactly the spec's
composition — projections, head split, scaled dot-product scores, softmax
over keys, weighted value sum, head-order merge, output projection — and
returns the pair `(result, weights)`, with the result indexed by the same
`(batch, seq, embed)` shape as the input. -/
theorem mha_forward_spec {B S H D : ℕ} (p : MHAParams H D) (x : Tensor3 B S (H * D)) :
    mhaForward p x = (specResult p x, specWeights p x) := by
  have hW : mhaWeights p x = specWeights p x := rfl
  have hO : mhaOutHeads p x = specHeadOut p x := rfl
  have hR : linear3 p.out (mergeHeads (mhaOutHeads p x)) = specResult p x := by
    funext b s o
    show (∑ e, mergeHeads (mhaOutHeads p x) b s e * p.out.weight o e) + p.out.bias o
        = (∑ h, ∑ j, specHeadOut p x b h s j * p.out.weight o (finHD h j)) + p.out.bias o
    rw [sum_finHD (fun e => mergeHeads (mhaOutHeads p x) b s e * p.out.weight o e)]
    refine congrArg (fun z => z + p.out.bias o) ?_
    refine Finset.sum_congr rfl fun h _ => Finset.sum_congr rfl fun j _ => ?_
    show mergeHeads (mhaOutHeads p x) b s (finHD h j) * p.out.weight o (finHD h j)
        = specHeadOut p x b h s j * p.out.weight o (finHD h j)
    rw [mergeHeads_finHD, hO]
  exact Prod.ext hR hW

/-- C4: for every input, batch element, head and query position, the attention
weights returned by Lesson 4's `MultiHeadAttention.forward` are non-negative
and sum to exactly 1 over the key positions (the softmax normalisation; over
`ℝ` the floating-point tolerance of the spec becomes exact equality). -/
theorem attn_weights_rowsum {B S H D : ℕ} (p : MHAParams H D) (x : Tensor3 B S (H * D))
    (b : Fin B) (h : Fin H) (i : Fin S) :
    (∀ j, 0 ≤ (mhaForward p x).2 b h i j) ∧ (∑ j, (mhaForward p x).2 b h i j) = 1 := by
  have hpos : (0 : ℝ) < ∑ k, Real.exp (mhaScores p x b h i k) :=
    Finset.sum_pos (fun k _ => Real.exp_pos _) ⟨i, Finset.mem_univ i⟩
  constructor
  · intro j
    show 0 ≤ Real.exp (mhaScores p x b h i j) / ∑ k, Real.exp (mhaScores p x b h i k)
    exact le_of_lt (div_pos (Real.exp_pos _) hpos)
  · show (∑ j, Real.exp (mhaScores p x b h i j) / ∑ k, Real.exp (mhaScores p x b h i k)) = 1
    rw [← Finset.sum_div]
    exact div_self hpos.ne'

/-! ## Transformer block (Lessons 4 and 5, `TransformerBlock`)

Both lessons use the identical wiring
```
attn_output, attn_weights = self.attention(x)
x = self.norm1(x + self.dropout(attn_output))
ff_output = self.ffn(x)
x = self.norm2(x + self.dropout(ff_output))
return x, attn_weights
```
The wiring is a definition parameterised by its four sublayers so it can be
instantiated with the real components, or with replacements as the spec's
residual-identity test prescribes.  Dropout is inference-mode identity. -/

def blockWire {B S E : ℕ} (attn ffnF n1 n2 : Tensor3 B S E → Tensor3 B S E)
    (x : Tensor3 B S E) : Tensor3 B S E :=
  let x1 := n1 (fun b s e => x b s e + attn x b s e)
  n2 (fun b s e => x1 b s e + ffnF x1 b s e)

/-- Model of `nn.ReLU()` elementwise. -/
noncomputable def relu3 {B S E : ℕ} (x : Tensor3 B S E) : Tensor3 B S E :=
  fun b s e => max (x b s e) 0

/-- Model of `self.ffn = nn.Sequential(nn.Linear(E, F), nn.ReLU(), nn.Linear(F, E))`. -/
noncomputable def ffnForward {B S E F : ℕ} (p1 : LinearParams E F) (p2 : LinearParams F E)
    (x : Tensor3 B S E) : Tensor3 B S E :=
  linear3 p2 (relu3 (linear3 p1 x))

/-- Default `eps = 1e-5` of `nn.LayerNorm`. -/
noncomputable def lnEps : ℝ := 1 / 100000

noncomputable def lnMean {E : ℕ} (v : Fin E → ℝ) : ℝ := (∑ k, v k) / E

noncomputable def lnVar {E : ℕ} (v : Fin E → ℝ) : ℝ :=
  (∑ k, (v k - lnMean v) ^ 2) / E

/-- Model of `nn.LayerNorm(E)`: per-feature normalisation over the last axis with the
biased variance, `eps` inside the square root, and learned affine scale and
bias. -/
noncomputable def layerNorm {B S E : ℕ} (w bi : Fin E → ℝ) (x : Tensor3 B S E) :
    Tensor3 B S E :=
  fun b s e =>
    w e * ((x b s e - lnMean (x b s)) / Real.sqrt (lnVar (x b s) + lnEps)) + bi e

/-- Parameters of Lesson 4's `TransformerBlock(embed_dim, num_heads,
ff_hidden_dim)`. -/
structure BlockParams (H D F : ℕ) where
  attention : MHAParams H D
  lin1 : LinearParams (H * D) F
  lin2 : LinearParams F (H * D)
  norm1w : Fin (H * D) → ℝ
  norm1b : Fin (H * D) → ℝ
  norm2w : Fin (H * D) → ℝ
  norm2b : Fin (H * D) → ℝ

/-- Lesson 4's `TransformerBlock.forward`: the wiring instantiated with the
real sublayers; returns the transformed tensor and the attention weights. -/
noncomputable def blockForward {B S H D F : ℕ} (p : BlockParams H D F)
    (x : Tensor3 B S (H * D)) :
    Tensor3 B S (H * D) × (Fin B → Fin H → Fin S → Fin S → ℝ) :=
  (blockWire (fun y => (mhaForward p.attention y).1)
    (ffnForward p.lin1 p.lin2)
    (layerNorm p.norm1w p.norm1b)
    (layerNorm p.norm2w p.norm2b) x,
   (mhaForward p.attention x).2)

/-- C9 counterexample: replacing the attention and feed-forward sublayers by
identity functions and both normalisations by identity does NOT return the
input: on the all-ones `(1,1,1)` tensor the block wiring returns 4, because
each residual stage computes `x + sublayer(x) = 2x`. -/
theorem block_residual_identity_cex :
    ¬ (blockWire (B := 1) (S := 1) (E := 1) id id id id (fun _ _ _ => 1) =
      (fun _ _ _ => 1)) := by
  intro hcontra
  have h := congrFun (congrFun (congrFun hcontra 0) 0) 0
  norm_num [blockWire, id] at h

/-- C9 (amended): with the attention and feed-forward sublayers replaced by
the zero function and both normalisations by the identity (dropout in
inference mode), the transformer-block wiring returns its input exactly;
with identity sublayers the output is `4x`, not `x` (see the
counterexample). -/
theorem block_residual_identity {B S E : ℕ} (x : Tensor3 B S E) :
    blockWire (fun _ _ _ _ => 0) (fun _ _ _ _ => 0) id id x = x := by
  funext b s e
  simp [blockWire]

/-! ## Shape model

PyTorch shape semantics for the operations the notebooks use, as computable
functions on `List ℕ` shapes returning `none` where PyTorch raises a shape
error.  Broadcasting aligns trailing dimensions; two sizes are compatible
when they are equal or one of them is 1. -/

def bcRev : List ℕ → List ℕ → Option (List ℕ)
  | [], ys => some ys
  | x :: xs, [] => some (x :: xs)
  | x :: xs, y :: ys =>
    match bcRev xs ys with
    | none => none
    | some r =>
      if x = y ∨ y = 1 then some (x :: r)
      else if x = 1 then some (y :: r)
      else none

/-- Shape of `a + b` under PyTorch broadcasting (`none` = RuntimeError). -/
def broadcastShapes (xs ys : List ℕ) : Option (List ℕ) :=
  (bcRev xs.reverse ys.reverse).map List.reverse

/-- Shape of `nn.Linear(inF, outF)` applied to a 3-D activation. -/
def linearShape (inF outF : ℕ) : List ℕ → Option (List ℕ)
  | [b, s, e] => if e = inF then some [b, s, outF] else none
  | _ => none

/-- Shape of `nn.LayerNorm(E)` applied to a 3-D activation. -/
def layerNormShape (E : ℕ) : List ℕ → Option (List ℕ)
  | [b, s, e] => if e = E then some [b, s, e] else none
  | _ => none

/-- Shape of `.view(b, s, H, hd)` on a 3-D tensor (requires equal numel). -/
def viewSplitShape (H hd : ℕ) : List ℕ → Option (List ℕ)
  | [b, s, e] => if b * s * e = b * s * (H * hd) then some [b, s, H, hd] else none
  | _ => none

/-- Shape of `.transpose(1, 2)` on a 4-D tensor. -/
def transpose12Shape : List ℕ → Option (List ℕ)
  | [a, b, c, d] => some [a, c, b, d]
  | _ => none

/-- Shape of `.transpose(-2, -1)` on a 4-D tensor. -/
def transposeLast2Shape : List ℕ → Option (List ℕ)
  | [a, b, c, d] => some [a, b, d, c]
  | _ => none

/-- Shape of `torch.matmul` on two 4-D tensors with equal batch dims. -/
def matmul4Shape : List ℕ → List ℕ → Option (List ℕ)
  | [a, h, n, k], [a', h', k', m] =>
    if a = a' ∧ h = h' ∧ k = k' then some [a, h, n, m] else none
  | _, _ => none

/-- Shape of `.transpose(1, 2).contiguous().view(b, s, E)` on a 4-D tensor. -/
def viewMergeShape (E : ℕ) : List ℕ → Option (List ℕ)
  | [b, s, h, hd] => if b * s * (h * hd) = b * s * E then some [b, s, E] else none
  | _ => none

/-- Shape of `.transpose(0, 1)` on a 3-D tensor. -/
def transpose01Shape : List ℕ → Option (List ℕ)
  | [a, b, c] => some [b, a, c]
  | _ => none

/-- Lesson 4 `MultiHeadAttention.forward`, shape level: returns the shapes of
`(out, attn_weights)`. -/
def l4MhaShape (E H : ℕ) (xs : List ℕ) : Option (List ℕ × List ℕ) := do
  let q ← linearShape E E xs
  let k ← linearShape E E xs
  let v ← linearShape E E xs
  let qh ← (viewSplitShape H (E / H) q).bind transpose12Shape
  let kh ← (viewSplitShape H (E / H) k).bind transpose12Shape
  let vh ← (viewSplitShape H (E / H) v).bind transpose12Shape
  let kt ← transposeLast2Shape kh
  let scores ← matmul4Shape qh kt
  let o ← matmul4Shape scores vh
  let om ← (transpose12Shape o).bind (viewMergeShape E)
  let res ← linearShape E E om
  return (res, scores)

/-- Lesson 5 `MultiHeadAttention.forward`, shape level: the wrapper
transposes to `(seq, batch, E)`, calls `nn.MultiheadAttention` — whose
default `need_weights=True, average_attn_weights=True` returns the attention
output of shape `(L, N, E)` and weights AVERAGED over heads of shape
`(N, L, L)` — and transposes the output back. -/
def l5MhaShape (E H : ℕ) (xs : List ℕ) : Option (List ℕ × List ℕ) := do
  let t ← transpose01Shape xs
  match t with
  | [l, n, e] =>
    if e = E then do
      let o ← transpose01Shape [l, n, E]
      return (o, [n, l, l])
    else none
  | _ => none

/-- The shared `TransformerBlock.forward` wiring at shape level,
parameterised by the attention sublayer's shape function. -/
def blockShapeWith (E F : ℕ) (attnShape : List ℕ → Option (List ℕ × List ℕ))
    (xs : List ℕ) : Option (List ℕ × List ℕ) := do
  let (a, w) ← attnShape xs
  let r1 ← broadcastShapes xs a
  let x1 ← layerNormShape E r1
  let f1 ← linearShape E F x1
  let f2 ← linearShape F E f1
  let r2 ← broadcastShapes x1 f2
  let x2 ← layerNormShape E r2
  return (x2, w)

def l4BlockShape (E H F : ℕ) (xs : List ℕ) : Option (List ℕ × List ℕ) :=
  blockShapeWith E F (l4MhaShape E H) xs

def l5BlockShape (E H F : ℕ) (xs : List ℕ) : Option (List ℕ × List ℕ) :=
  blockShapeWith E F (l5MhaShape E H) xs

/-- Shape level `PositionalEncoding.forward`: `x + self.pe[:seq_len, :]`
where the stored table has shape `(max_seq_length, embed_dim)`; the slice
`pe[:seq_len]` has `min seq_len max_seq_length` rows and the sum broadcasts. -/
def peForwardShape (d m : ℕ) : List ℕ → Option (List ℕ)
  | [b, s, e] => broadcastShapes [b, s, e] [min s m, d]
  | _ => none

lemma bcRev_self (l : List ℕ) : bcRev l l = some l := by
  induction l with
  | nil => rfl
  | cons x xs ih => simp [bcRev, ih]

/-- Adding two tensors of identical shape broadcasts to that shape. -/
lemma broadcastShapes_self (xs : List ℕ) : broadcastShapes xs xs = some xs := by
  simp [broadcastShapes, bcRev_self]

/-- C3: for every input shape `(B, S, E)` (with `S` within the positional
table, hypothesis unused by the block itself) and valid construction
parameters (`num_heads` dividing `embed_dim`), both lessons'
`TransformerBlock.forward` return an output tensor of exactly the input
shape `(B, S, E)`. -/
theorem block_shape_preserved (B S E H F M : ℕ) (hH : H ∣ E) (hS : S ≤ M) :
    (l4BlockShape E H F [B, S, E]).map Prod.fst = some [B, S, E] ∧
    (l5BlockShape E H F [B, S, E]).map Prod.fst = some [B, S, E] := by
  have hE : H * (E / H) = E := Nat.mul_div_cancel' hH
  have h4 : l4MhaShape E H [B, S, E] = some ([B, S, E], [B, H, S, S]) := by
    simp [l4MhaShape, linearShape, viewSplitShape, transpose12Shape,
      transposeLast2Shape, matmul4Shape, viewMergeShape, hE, Option.bind]
  have h5 : l5MhaShape E H [B, S, E] = some ([B, S, E], [B, S, S]) := by
    simp [l5MhaShape, transpose01Shape, Option.bind]
  constructor
  · simp [l4BlockShape, blockShapeWith, h4, broadcastShapes_self, layerNormShape,
      linearShape, Option.bind]
  · simp [l5BlockShape, blockShapeWith, h5, broadcastShapes_self, layerNormShape,
      linearShape, Option.bind]

/-- Witness for C3 at the notebook configuration `E = 64`, `H = 4`,
`F = 256`, input `(2, 10, 64)`, `max_seq_length = 50`. -/
theorem block_shape_preserved_witness :
    (l4BlockShape 64 4 256 [2, 10, 64]).map Prod.fst = some [2, 10, 64] ∧
    (l5BlockShape 64 4 256 [2, 10, 64]).map Prod.fst = some [2, 10, 64] :=
  block_shape_preserved 2 10 64 4 256 50 (by decide) (by decide)

/-- C8 (amended): Lesson 4's `MultiHeadAttention.forward` does return per-head
weights of shape `(batch, num_heads, seq, seq)`; but Lesson 5's
`MultiHeadAttention` (the `nn.MultiheadAttention` wrapper with the default
`average_attn_weights=True`) returns weights averaged over heads, of shape
`(batch, seq, seq)` — not one matrix per head. -/
theorem attn_weights_shape (B S E H : ℕ) (hH : H ∣ E) :
    (l4MhaShape E H [B, S, E]).map Prod.snd = some [B, H, S, S] ∧
    (l5MhaShape E H [B, S, E]).map Prod.snd = some [B, S, S] := by
  have hE : H * (E / H) = E := Nat.mul_div_cancel' hH
  constructor
  · simp [l4MhaShape, linearShape, viewSplitShape, transpose12Shape,
      transposeLast2Shape, matmul4Shape, viewMergeShape, hE, Option.bind]
  · simp [l5MhaShape, transpose01Shape, Option.bind]

/-- Witness for (amended) C8 at the Lesson 4 configuration `E = 64`,
`H = 4`, input `(1, 6, 64)`. -/
theorem attn_weights_shape_witness :
    (l4MhaShape 64 4 [1, 6, 64]).map Prod.snd = some [1, 4, 6, 6] ∧
    (l5MhaShape 64 4 [1, 6, 64]).map Prod.snd = some [1, 6, 6] :=
  attn_weights_shape 1 6 64 4 (by decide)

/-- C8 counterexample: at `embed_dim = 64`, `num_heads = 4`, input
`(1, 6, 64)`, Lesson 5's attention returns weights of shape `(1, 6, 6)`,
which is not the claimed `(batch, num_heads, seq, seq) = (1, 4, 6, 6)`. -/
theorem attn_weights_shape_cex :
    (l5MhaShape 64 4 [1, 6, 64]).map Prod.snd = some [1, 6, 6] ∧
    some [1, 6, 6] ≠ some [1, 4, 6, 6] := by decide

/-- C6 (amended): whenever `seq_length > max_seq_length` and
`max_seq_length ≥ 2`, the positional-encoding addition
`x + pe[:seq_length, :]` is a PyTorch broadcast error — a reported
RuntimeError, not a silent truncation.  (With `max_seq_length = 1` the
single stored row silently broadcasts instead; see the counterexample.) -/
theorem pe_overlong_rejected (b s e m d : ℕ) (he : e = d) (hm : m < s) (h2 : 2 ≤ m) :
    peForwardShape d m [b, s, e] = none := by
  subst he
  have hsm : s ≠ m := by omega
  have hm1 : m ≠ 1 := by omega
  have hs1 : s ≠ 1 := by omega
  simp [peForwardShape, broadcastShapes, bcRev, Nat.min_eq_right hm.le, hsm, hm1, hs1]

/-- Witness for (amended) C6: the spec's rejection scenario, sequence length
60 against `max_seq_length = 50` (embed_dim 4), is a shape error. -/
theorem pe_overlong_rejected_witness : peForwardShape 4 50 [2, 60, 4] = none :=
  pe_overlong_rejected 2 60 4 50 4 rfl (by decide) (by decide)

/-- C6 counterexample: with `max_seq_length = 1` and sequence length 2, the
stored one-row table broadcasts over both positions and the forward pass
silently succeeds — no error is raised, refuting the claim for every
configuration. -/
theorem pe_overlong_rejected_cex :
    1 < 2 ∧ peForwardShape 4 1 [1, 2, 4] = some [1, 2, 4] := by decide

/-! ## Value model of Lesson 5's language model

Lesson 5's `MultiHeadAttention` wraps `nn.MultiheadAttention`:
```
def forward(self, x):
    x = x.transpose(0, 1)                          # (seq, batch, E)
    attn_output, attn_weights = self.attention(x, x, x)
    attn_output = attn_output.transpose(0, 1)      # (batch, seq, E)
    return attn_output, attn_weights
```
The two transposes are pure index permutations that cancel on the output, so
the value model works directly on `(batch, seq, E)` layout.
`nn.MultiheadAttention` computes the same per-head scaled dot-product
attention as the Lesson 4 code (packed Q/K/V input projections, head split
of the feature axis, scores scaled by `head_dim^(-0.5)`, softmax over keys,
output projection); with its defaults `need_weights=True,
average_attn_weights=True` the returned weights are the per-head weights
averaged over the `num_heads` axis. -/

noncomputable def l5MhaForward {B S H D : ℕ} (p : MHAParams H D) (x : Tensor3 B S (H * D)) :
    Tensor3 B S (H * D) × (Fin B → Fin S → Fin S → ℝ) :=
  ((mhaForward p x).1, fun b i j => (∑ h, mhaWeights p x b h i j) / H)

/-- Lesson 5's `TransformerBlock.forward`: identical wiring to Lesson 4's,
with the `nn.MultiheadAttention`-based sublayer. -/
noncomputable def l5BlockForward {B S H D F : ℕ} (p : BlockParams H D F)
    (x : Tensor3 B S (H * D)) :
    Tensor3 B S (H * D) × (Fin B → Fin S → Fin S → ℝ) :=
  (blockWire (fun y => (l5MhaForward p.attention y).1)
    (ffnForward p.lin1 p.lin2)
    (layerNorm p.norm1w p.norm1b)
    (layerNorm p.norm2w p.norm2b) x,
   (l5MhaForward p.attention x).2)

/-- Parameters of `LanguageModel(vocab_size, embed_dim, num_heads, num_layers,
ff_hidden_dim, max_seq_length)`: the embedding table, one parameter set per
transformer block (`num_layers = blocks.length`), the output projection and
the positional-table capacity. -/
structure LMParams (V H D F : ℕ) where
  embedding : Fin V → Fin (H * D) → ℝ
  blocks : List (BlockParams H D F)
  output : LinearParams (H * D) V
  maxSeq : ℕ

/-- Model of `self.embedding(x)`: table lookup; an index outside `[0, vocab_size)` is
an `IndexError` in PyTorch, handled by the guard in `lmForward` (the `else 0`
branch here is never reached on the `some` path). -/
noncomputable def lmEmbed {B S V H D F : ℕ} (p : LMParams V H D F)
    (ids : Fin B → Fin S → ℕ) : Tensor3 B S (H * D) :=
  fun b s k => if h : ids b s < V then p.embedding ⟨ids b s, h⟩ k else 0

/-- Body of `LanguageModel.forward` on the in-range, in-capacity domain: embedding
lookup, positional addition (`x + pe[:seq_len, :]`), the blocks in sequence
(`for block in self.transformer_blocks: x, _ = block(x)`), output
projection. -/
noncomputable def lmBody {B S V H D F : ℕ} (p : LMParams V H D F)
    (ids : Fin B → Fin S → ℕ) : Fin B → Fin S → Fin V → ℝ :=
  linear3 p.output
    (p.blocks.foldl (fun acc blk => (l5BlockForward blk acc).1)
      (fun b s k => lmEmbed p ids b s k + peFun (H * D) s.1 k.1))

/-- Model of `LanguageModel.forward`: raises (returns `none`) when a token ID is out
of the vocabulary range (PyTorch `IndexError` in the embedding lookup) or the
sequence is longer than the positional table (broadcast shape error, see the
shape model); otherwise returns the logits. -/
noncomputable def lmForward {B S V H D F : ℕ} (p : LMParams V H D F)
    (ids : Fin B → Fin S → ℕ) : Option (Fin B → Fin S → Fin V → ℝ) :=
  if (∀ b s, ids b s < V) ∧ S ≤ p.maxSeq then some (lmBody p ids) else none

/-- C7: for every token-ID tensor containing an ID outside `[0, vocab_size)`,
`LanguageModel.forward` reports an error (`none`) rather than wrapping the ID
or returning logits. -/
theorem lm_oov_rejected {B S V H D F : ℕ} (p : LMParams V H D F)
    (ids : Fin B → Fin S → ℕ) (hbad : ∃ b s, V ≤ ids b s) :
    lmForward p ids = none := by
  obtain ⟨b, s, hb⟩ := hbad
  rw [lmForward, if_neg]
  intro ⟨h1, _⟩
  exact absurd (h1 b s) (not_lt.mpr hb)

/-- All-zero parameters for a tiny model (`vocab_size = 2`, `embed_dim = 1`,
one head, no blocks), used to witness the out-of-vocabulary rejection. -/
noncomputable def lmZeroParams : LMParams 2 1 1 1 where
  embedding := fun _ _ => 0
  blocks := []
  output := ⟨fun _ _ => 0, fun _ => 0⟩
  maxSeq := 5

/-- Witness for C7: the spec's rejection scenario, a token ID equal to
`vocab_size` (here 2), on a `(1, 1)` input. -/
theorem lm_oov_rejected_witness :
    lmForward (B := 1) (S := 1) lmZeroParams (fun _ _ => 2) = none :=
  lm_oov_rejected lmZeroParams (fun _ _ => 2) ⟨0, 0, le_refl 2⟩

/-! ## No causal mask

Neither lesson's attention applies a mask: `self.attention(x, x, x)` is
called without `attn_mask`, so every query position attends to every key
position, including later ones.  The witnesses below instantiate the tiny
configuration `vocab_size = 2`, `embed_dim = 2`, one head, one block,
`ff_hidden_dim = 1`, `max_seq_length = 2` with parameters (zero query/key
projections, identity value/output projections, zero feed-forward, default
unit/zero LayerNorm affine, an output row reading feature 0) chosen so the
logits reduce to a composition of strictly injective normalisation maps of a
quantity that shifts by 1 when the *later* token changes. -/


def idLinear (n : ℕ) : LinearParams n n := ⟨fun o i => if o = i then 1 else 0, fun _ => 0⟩

def zeroLinear (m n : ℕ) : LinearParams m n := ⟨fun _ _ => 0, fun _ => 0⟩

lemma linear3_idLinear {B S E : ℕ} (x : Tensor3 B S E) : linear3 (idLinear E) x = x := by
  funext b s o
  show (∑ i, x b s i * (idLinear E).weight o i) + (idLinear E).bias o = x b s o
  simp [idLinear, mul_ite, Finset.sum_ite_eq]

lemma linear3_zeroLinear {B S m n : ℕ} (x : Tensor3 B S m) :
    linear3 (zeroLinear m n) x = fun _ _ _ => 0 := by
  funext b s o
  show (∑ i, x b s i * (zeroLinear m n).weight o i) + (zeroLinear m n).bias o = 0
  simp [zeroLinear]

noncomputable def nrm (z : ℝ) : ℝ := z / Real.sqrt (z ^ 2 + lnEps)

lemma lnEps_pos : (0 : ℝ) < lnEps := by norm_num [lnEps]

lemma nrm_inj : Function.Injective nrm := by
  intro a b hab
  have hae : (0:ℝ) < a ^ 2 + lnEps := add_pos_of_nonneg_of_pos (sq_nonneg a) lnEps_pos
  have hbe : (0:ℝ) < b ^ 2 + lnEps := add_pos_of_nonneg_of_pos (sq_nonneg b) lnEps_pos
  have ha : (0:ℝ) < Real.sqrt (a ^ 2 + lnEps) := Real.sqrt_pos.mpr hae
  have hb : (0:ℝ) < Real.sqrt (b ^ 2 + lnEps) := Real.sqrt_pos.mpr hbe
  rw [nrm, nrm, div_eq_div_iff ha.ne' hb.ne'] at hab
  have hsq : a ^ 2 * (b ^ 2 + lnEps) = b ^ 2 * (a ^ 2 + lnEps) := by
    have h2 := congrArg (fun t => t ^ 2) hab
    simpa [mul_pow, Real.sq_sqrt hae.le, Real.sq_sqrt hbe.le] using h2
  have habs : a ^ 2 = b ^ 2 := by
    have hε := lnEps_pos
    nlinarith [hsq]
  have habs2 : |a| = |b| := by
    have h1 : Real.sqrt (a ^ 2) = Real.sqrt (b ^ 2) := by rw [habs]
    simpa [Real.sqrt_sq_eq_abs] using h1
  rcases abs_eq_abs.mp habs2 with h | h
  · exact h
  · subst h
    rw [neg_sq] at hab
    have h2s : b * (2 * Real.sqrt (b ^ 2 + lnEps)) = 0 := by linarith
    rcases mul_eq_zero.mp h2s with h | h
    · simp [h]
    · linarith

lemma layerNorm_two_eval {B S : ℕ} (x : Tensor3 B S 2) (b : Fin B) (s : Fin S) :
    layerNorm (fun _ => 1) (fun _ => 0) x b s 0 = nrm ((x b s 0 - x b s 1) / 2) ∧
    layerNorm (fun _ => 1) (fun _ => 0) x b s 1 = -nrm ((x b s 0 - x b s 1) / 2) := by
  have hmean : lnMean (x b s) = (x b s 0 + x b s 1) / 2 := by
    rw [lnMean, Fin.sum_univ_two]
    norm_num
  have hvar : lnVar (x b s) = ((x b s 0 - x b s 1) / 2) ^ 2 := by
    rw [lnVar, Fin.sum_univ_two, hmean]
    push_cast
    ring
  constructor
  · show (1 : ℝ) * ((x b s 0 - lnMean (x b s)) / Real.sqrt (lnVar (x b s) + lnEps)) + 0
        = nrm ((x b s 0 - x b s 1) / 2)
    rw [hmean, hvar, nrm]
    have h1 : x b s 0 - (x b s 0 + x b s 1) / 2 = (x b s 0 - x b s 1) / 2 := by ring
    rw [h1, one_mul, add_zero]
  · show (1 : ℝ) * ((x b s 1 - lnMean (x b s)) / Real.sqrt (lnVar (x b s) + lnEps)) + 0
        = -nrm ((x b s 0 - x b s 1) / 2)
    rw [hmean, hvar, nrm]
    have h1 : x b s 1 - (x b s 0 + x b s 1) / 2 = -((x b s 0 - x b s 1) / 2) := by ring
    rw [h1, one_mul, add_zero, neg_div]

noncomputable def c10Attn : MHAParams 1 2 where
  query := zeroLinear 2 2
  key := zeroLinear 2 2
  value := idLinear 2
  out := idLinear 2

lemma c10_scores (y : Tensor3 1 2 2) (b : Fin 1) (h : Fin 1) (i j : Fin 2) :
    mhaScores c10Attn y b h i j = 0 := by
  show (∑ k, splitHeads (linear3 c10Attn.query y) b h i k *
      splitHeads (linear3 c10Attn.key y) b h j k) * mhaScale 2 = 0
  have hq : linear3 c10Attn.query y = fun _ _ _ => 0 := linear3_zeroLinear y
  rw [hq]
  simp [splitHeads]

lemma c10_weights (y : Tensor3 1 2 2) (b : Fin 1) (h : Fin 1) (i j : Fin 2) :
    mhaWeights c10Attn y b h i j = 1 / 2 := by
  show softmax (mhaScores c10Attn y b h i) j = 1 / 2
  rw [softmax]
  simp only [c10_scores, Real.exp_zero, Fin.sum_univ_two]
  norm_num

lemma c10_outHeads (y : Tensor3 1 2 2) (b : Fin 1) (h : Fin 1) (i : Fin 2) (k : Fin 2) :
    mhaOutHeads c10Attn y b h i k = (y b 0 (finHD h k) + y b 1 (finHD h k)) / 2 := by
  show (∑ j, mhaWeights c10Attn y b h i j *
      splitHeads (linear3 c10Attn.value y) b h j k) = _
  have hv : linear3 c10Attn.value y = y := linear3_idLinear y
  rw [hv]
  simp only [Fin.sum_univ_two, c10_weights, splitHeads]
  ring

lemma c10_attn_out (y : Tensor3 1 2 2) (b : Fin 1) (s : Fin 2) (e : Fin 2) :
    (mhaForward c10Attn y).1 b s e = (y b 0 e + y b 1 e) / 2 := by
  show linear3 c10Attn.out (mergeHeads (mhaOutHeads c10Attn y)) b s e = _
  have ho : linear3 c10Attn.out (mergeHeads (mhaOutHeads c10Attn y)) =
      mergeHeads (mhaOutHeads c10Attn y) := linear3_idLinear _
  rw [ho]
  have he : e = finHD (0 : Fin 1) e := by
    apply Fin.ext
    simp [finHD]
  rw [he, mergeHeads_finHD, c10_outHeads]

noncomputable def c10Block : BlockParams 1 2 1 where
  attention := c10Attn
  lin1 := zeroLinear 2 1
  lin2 := zeroLinear 1 2
  norm1w := fun _ => 1
  norm1b := fun _ => 0
  norm2w := fun _ => 1
  norm2b := fun _ => 0

lemma c10_block_eval (y : Tensor3 1 2 2) (b : Fin 1) (s : Fin 2) :
    (l5BlockForward c10Block y).1 b s 0 =
      nrm (nrm ((y b s 0 + (y b 0 0 + y b 1 0) / 2
        - (y b s 1 + (y b 0 1 + y b 1 1) / 2)) / 2)) := by
  have hffn : ∀ x : Tensor3 1 2 2,
      ffnForward (zeroLinear 2 1) (zeroLinear 1 2) x = fun _ _ _ => 0 := by
    intro x
    rw [ffnForward, linear3_zeroLinear]
  have h1 : (l5BlockForward c10Block y).1 b s 0 =
      layerNorm (fun _ => 1) (fun _ => 0)
        (fun b2 s2 e2 =>
          layerNorm (fun _ => 1) (fun _ => 0)
            (fun b3 s3 e3 => y b3 s3 e3 + (mhaForward c10Attn y).1 b3 s3 e3) b2 s2 e2
          + ffnForward (zeroLinear 2 1) (zeroLinear 1 2)
              (layerNorm (fun _ => 1) (fun _ => 0)
                (fun b3 s3 e3 => y b3 s3 e3 + (mhaForward c10Attn y).1 b3 s3 e3)) b2 s2 e2)
        b s 0 := rfl
  rw [h1, hffn]
  simp only [add_zero]
  rw [(layerNorm_two_eval (fun b2 s2 e2 =>
      layerNorm (fun _ => 1) (fun _ => 0)
        (fun b3 s3 e3 => y b3 s3 e3 + (mhaForward c10Attn y).1 b3 s3 e3) b2 s2 e2) b s).1]
  simp only [(layerNorm_two_eval (fun b3 s3 e3 =>
      y b3 s3 e3 + (mhaForward c10Attn y).1 b3 s3 e3) b s).1,
    (layerNorm_two_eval (fun b3 s3 e3 =>
      y b3 s3 e3 + (mhaForward c10Attn y).1 b3 s3 e3) b s).2]
  simp only [c10_attn_out]
  have harg : (nrm ((y b s 0 + (y b 0 0 + y b 1 0) / 2
        - (y b s 1 + (y b 0 1 + y b 1 1) / 2)) / 2)
      - -nrm ((y b s 0 + (y b 0 0 + y b 1 0) / 2
        - (y b s 1 + (y b 0 1 + y b 1 1) / 2)) / 2)) / 2
      = nrm ((y b s 0 + (y b 0 0 + y b 1 0) / 2
        - (y b s 1 + (y b 0 1 + y b 1 1) / 2)) / 2) := by
    ring
  rw [harg]

noncomputable def pickLin : LinearParams 2 2 :=
  ⟨fun o i => if o.1 = 0 ∧ i.1 = 0 then 1 else 0, fun _ => 0⟩

lemma pickLin_eval {B S : ℕ} (X : Tensor3 B S 2) (b : Fin B) (s : Fin S) :
    linear3 pickLin X b s 0 = X b s 0 := by
  show (∑ i, X b s i * pickLin.weight 0 i) + pickLin.bias 0 = X b s 0
  simp [pickLin, Fin.sum_univ_two]

noncomputable def c10Embedding : Fin 2 → Fin 2 → ℝ :=
  fun v k => if v.1 = 1 ∧ k.1 = 0 then 4 else 0

noncomputable def c10Params : LMParams 2 1 2 1 where
  embedding := c10Embedding
  blocks := [c10Block]
  output := pickLin
  maxSeq := 2

/-- C10: the attention in `LanguageModel` applies no causal mask — there are
model parameters and two token-ID inputs that agree at position 0 and differ
only at the later position 1, whose forward passes both succeed, yet whose
logits at position 0 differ: the next-token logits at a position can depend
on tokens that come after it. -/
theorem lm_no_causal_mask :
    ∃ (p : LMParams 2 1 2 1) (x x' : Fin 1 → Fin 2 → ℕ),
      x 0 0 = x' 0 0 ∧ x 0 1 ≠ x' 0 1 ∧
      lmForward p x = some (lmBody p x) ∧
      lmForward p x' = some (lmBody p x') ∧
      lmBody p x 0 0 0 ≠ lmBody p x' 0 0 0 := by
  refine ⟨c10Params, (fun _ _ => 0), (fun _ s => if s.1 = 1 then 1 else 0),
    rfl, by simp, ?_, ?_, ?_⟩
  · rw [lmForward, if_pos]
    exact ⟨fun b s => by norm_num, le_refl 2⟩
  · rw [lmForward, if_pos]
    refine ⟨fun b s => ?_, le_refl 2⟩
    split <;> norm_num
  · have hA : lmBody (B := 1) (S := 2) c10Params (fun _ _ => 0) 0 0 0 =
        (l5BlockForward (B := 1) (S := 2) c10Block
          (fun b s k => lmEmbed c10Params (fun _ _ => 0) b s k +
            peFun (1 * 2) s.1 k.1)).1 0 0 0 := by
      show linear3 c10Params.output
          ((l5BlockForward (B := 1) (S := 2) c10Block
            (fun b s k => lmEmbed c10Params (fun _ _ => 0) b s k +
              peFun (1 * 2) s.1 k.1)).1) 0 0 0 = _
      exact pickLin_eval (B := 1) (S := 2) _ 0 0
    have hB : lmBody (B := 1) (S := 2) c10Params (fun _ s => if s.1 = 1 then 1 else 0) 0 0 0 =
        (l5BlockForward (B := 1) (S := 2) c10Block
          (fun b s k => lmEmbed c10Params (fun _ s' => if s'.1 = 1 then 1 else 0) b s k +
            peFun (1 * 2) s.1 k.1)).1 0 0 0 := by
      show linear3 c10Params.output
          ((l5BlockForward (B := 1) (S := 2) c10Block
            (fun b s k => lmEmbed c10Params (fun _ s' => if s'.1 = 1 then 1 else 0) b s k +
              peFun (1 * 2) s.1 k.1)).1) 0 0 0 = _
      exact pickLin_eval (B := 1) (S := 2) _ 0 0
    rw [hA, hB, c10_block_eval, c10_block_eval]
    simp only [lmEmbed, c10Params, c10Embedding, Fin.val_zero, Fin.val_one, Fin.isValue]
    norm_num
    intro heq
    have h2 := nrm_inj (nrm_inj heq)
    linarith
